import Mathlib

/-!
Verification of the blocking connection adapter
(`pika/adapters/blocking_connection.py`).

The development shallowly embeds the two classes of the source file:

* `BlockingConnection` — the polling event loop (`process_data_events`),
  the timeout scheduler (`add_timeout` / `remove_timeout` /
  `process_timeouts`), the socket-timeout policy (`_handle_timeout`) and
  the write-to-read flow control (`_send_frame`).
* `BlockingChannel` — the RPC correlation machinery (`_rpc`,
  `_process_replies`, `_on_rpc_complete`, `_send_method`), argument
  validation, and the public channel operations built on top of them.

Python dictionaries are embedded as association lists with unique keys;
wall-clock readings are natural numbers (a reading stands for the value
of `time.time()` after `'%.8f'` formatting, so two calls that observe
the same reading mint the same identifier).  Fallible Python code is
embedded with explicit error values.
-/

/-- Python exception values raised by the embedded code. -/
inductive PyErr where
  | channelClosed
  | typeError
  | valueError
  | keyError
  | attributeError
  | methodNotImplemented
  | amqpConnectionError
deriving Repr, DecidableEq

/-! ### Python dictionaries as association lists -/

/-- `d[k]` lookup in a Python dict embedded as an association list. -/
def dictLookup {α : Type} (k : String) : List (String × α) → Option α
  | [] => none
  | p :: ps => if p.1 = k then some p.2 else dictLookup k ps

/-- `k in d` membership test. -/
def dictContains {α : Type} (k : String) (l : List (String × α)) : Bool :=
  (dictLookup k l).isSome

/-- `del d[k]` / `d.pop(k)` removal of a binding. -/
def dictRemove {α : Type} (k : String) (l : List (String × α)) :
    List (String × α) :=
  l.filter (fun p => decide (p.1 ≠ k))

/-- `d[k] = v` assignment: replaces the binding in place when the key is
present, appends it otherwise (Python dict assignment semantics). -/
def dictInsert {α : Type} (k : String) (v : α) (l : List (String × α)) :
    List (String × α) :=
  if dictContains k l then
    l.map (fun p => if p.1 = k then (k, v) else p)
  else
    l ++ [(k, v)]

theorem dictLookup_remove {α : Type} (k k' : String) (l : List (String × α)) :
    dictLookup k' (dictRemove k l) =
      if k' = k then none else dictLookup k' l := by
  induction l with
  | nil => simp [dictRemove, dictLookup]
  | cons p ps ih =>
    by_cases hpk : p.1 = k
    · by_cases hk : k' = k
      · subst hk
        simp [dictRemove, dictLookup, hpk] at ih ⊢
        simpa [dictRemove] using ih
      · simp only [dictRemove, List.filter] at ih ⊢
        rw [show (decide (p.1 ≠ k)) = false by simp [hpk]]
        have hpk' : ¬ p.1 = k' := by
          intro h; exact hk (by rw [← h, hpk])
        simp [dictLookup, hpk', hk] at ih ⊢
        simpa [dictRemove] using ih
    · simp only [dictRemove, List.filter] at ih ⊢
      rw [show (decide (p.1 ≠ k)) = true by simp [hpk]]
      by_cases hpk' : p.1 = k'
      · have hk : ¬ k' = k := by intro h; exact hpk (by rw [hpk', h])
        simp [dictLookup, hpk', hk]
      · simp [dictLookup, hpk']
        simpa [dictRemove] using ih

theorem dictLookup_insert_self {α : Type} (k : String) (v : α)
    (l : List (String × α)) :
    dictLookup k (dictInsert k v l) = some v := by
  unfold dictInsert
  by_cases hc : dictContains k l
  · simp only [hc, if_true]
    unfold dictContains at hc
    induction l with
    | nil => simp [dictLookup] at hc
    | cons p ps ih =>
      by_cases hpk : p.1 = k
      · simp [dictLookup, hpk]
      · simp only [List.map]
        rw [if_neg hpk]
        simp only [dictLookup, hpk, if_false] at hc ⊢
        exact ih hc
  · simp only [hc, if_false]
    induction l with
    | nil => simp [dictLookup]
    | cons p ps ih =>
      unfold dictContains at hc
      by_cases hpk : p.1 = k
      · exfalso
        simp [dictLookup, hpk] at hc
      · simp only [List.cons_append, dictLookup, hpk, if_false] at hc ⊢
        exact ih hc

theorem dictLookup_map_replace {α : Type} (k k' : String) (v : α)
    (l : List (String × α)) (h : k' ≠ k) :
    dictLookup k' (l.map (fun p => if p.1 = k then (k, v) else p)) =
      dictLookup k' l := by
  induction l with
  | nil => simp [dictLookup]
  | cons p ps ih =>
    by_cases hpk : p.1 = k
    · have hpk' : ¬ p.1 = k' := by
        intro hx; exact h (by rw [← hx, hpk])
      simp [dictLookup, hpk, hpk', Ne.symm h, ih]
    · by_cases hpk' : p.1 = k'
      · rw [List.map_cons, if_neg hpk]
        simp [dictLookup, hpk']
      · simp [dictLookup, hpk, hpk', ih]

theorem dictLookup_append_single {α : Type} (k k' : String) (v : α)
    (l : List (String × α)) (h : k' ≠ k) :
    dictLookup k' (l ++ [(k, v)]) = dictLookup k' l := by
  induction l with
  | nil => simp [dictLookup, Ne.symm h]
  | cons p ps ih =>
    by_cases hpk' : p.1 = k'
    · simp [dictLookup, hpk']
    · simp [dictLookup, hpk', ih]

theorem dictLookup_insert_ne {α : Type} (k k' : String) (v : α)
    (l : List (String × α)) (h : k' ≠ k) :
    dictLookup k' (dictInsert k v l) = dictLookup k' l := by
  unfold dictInsert
  by_cases hc : dictContains k l
  · simp only [hc, if_true]
    exact dictLookup_map_replace k k' v l h
  · simp only [hc, if_false]
    exact dictLookup_append_single k k' v l h

theorem dictLookup_mem {α : Type} {k : String} {v : α}
    {l : List (String × α)} (h : dictLookup k l = some v) : (k, v) ∈ l := by
  induction l with
  | nil => simp [dictLookup] at h
  | cons p ps ih =>
    by_cases hpk : p.1 = k
    · simp only [dictLookup, hpk, if_true, Option.some.injEq] at h
      have : p = (k, v) := by
        cases p
        simp only [Prod.mk.injEq]
        exact ⟨hpk, h⟩
      rw [← this]
      exact List.mem_cons_self p ps
    · simp only [dictLookup, hpk, if_false] at h
      exact List.mem_cons_of_mem p (ih h)

/-! ### Timeout scheduler (`add_timeout` / `remove_timeout` / `process_timeouts`) -/

/-- The zero-argument action stored in a timeout entry.  The source stores
arbitrary Python callables; the embedding closes the action language to the
behaviours relevant here: doing nothing, or re-scheduling via `add_timeout`
(the action observes the clock reading `mint` when it re-schedules). -/
inductive TAction where
  | noop
  | reschedule (offset : Nat) (mint : Nat)
deriving Repr, DecidableEq

/-- One entry of `self._timeouts`: `{'deadline': ..., 'method': ...}`. -/
structure TimeoutEntry where
  deadline : Nat
  method : TAction
deriving Repr, DecidableEq

/-- `self._timeouts`, a Python dict from timeout id to entry. -/
abbrev TimeoutTable : Type := List (String × TimeoutEntry)

/-- `'%.8f' % time.time()`: the id minted from a clock reading.  Two calls
observing the same reading mint the same id. -/
def fmtTime (t : Nat) : String := toString t

/-- `BlockingConnection.add_timeout`: mints a time-based id, stores
`{'deadline': deadline + time.time(), 'method': callback}` (dict assignment,
so an existing entry under the same id is silently replaced), and returns
the id.  `now` is the clock reading observed by both `time.time()` calls. -/
def addTimeout (now : Nat) (offset : Nat) (cb : TAction) (tbl : TimeoutTable) :
    String × TimeoutTable :=
  let timeoutId := fmtTime now
  (timeoutId, dictInsert timeoutId ⟨offset + now, cb⟩ tbl)

/-- `BlockingConnection.remove_timeout`: deletes the entry if present,
no-op otherwise. -/
def removeTimeout (timeoutId : String) (tbl : TimeoutTable) : TimeoutTable :=
  if dictContains timeoutId tbl then dictRemove timeoutId tbl else tbl

/-- `BlockingConnection._deadline_passed`: `False` for an unknown id,
otherwise compares the stored deadline against the clock. -/
def deadlinePassed (now : Nat) (tbl : TimeoutTable) (timeoutId : String) :
    Bool :=
  match dictLookup timeoutId tbl with
  | none => false
  | some e => decide (e.deadline ≤ now)

/-- Record of one firing inside `process_timeouts`: the id, the entry
popped for it, and whether the id was still in the table at the moment the
action was invoked (the source pops before calling). -/
structure FiredTimeout where
  id : String
  entry : TimeoutEntry
  presentAtInvoke : Bool
deriving Repr, DecidableEq

/-- Effect of `_call_timeout_method` on the timeout table: a `noop` action
leaves it alone; a rescheduling action calls `add_timeout`. -/
def runTimeoutAction : TAction → TimeoutTable → TimeoutTable
  | .noop, tbl => tbl
  | .reschedule offset mint, tbl => (addTimeout mint offset .noop tbl).2

/-- The loop body of `process_timeouts`: iterate over the snapshot of
`self._timeouts.keys()` taken at entry; for each id whose deadline has
passed, pop the entry and invoke its action.  Returns the final table and
the ordered log of firings. -/
def processTimeoutsAux (now : Nat) :
    List String → TimeoutTable → List FiredTimeout →
      TimeoutTable × List FiredTimeout
  | [], tbl, acc => (tbl, acc)
  | k :: ks, tbl, acc =>
    if deadlinePassed now tbl k then
      match dictLookup k tbl with
      | some e =>
        let tbl1 := dictRemove k tbl
        processTimeoutsAux now ks (runTimeoutAction e.method tbl1)
          (acc ++ [⟨k, e, dictContains k tbl1⟩])
      | none => processTimeoutsAux now ks tbl acc
    else processTimeoutsAux now ks tbl acc

/-- `BlockingConnection.process_timeouts` (one pass), with `now` the clock
reading used by the deadline checks of the pass. -/
def processTimeouts (now : Nat) (tbl : TimeoutTable) :
    TimeoutTable × List FiredTimeout :=
  processTimeoutsAux now (tbl.map Prod.fst) tbl []

/-! ### `BlockingConnection`: event loop, socket-timeout policy, flow control -/

/-- Class constants of `BlockingConnection`. -/
def WRITE_TO_READ_RATIO : Nat := 1000

/-- `SOCKET_TIMEOUT_THRESHOLD = 12` (declared on the class; the timeout
handler never consults it — see `handleTimeout`). -/
def SOCKET_TIMEOUT_THRESHOLD : Nat := 12

/-- `SOCKET_TIMEOUT_CLOSE_THRESHOLD = 3`. -/
def SOCKET_TIMEOUT_CLOSE_THRESHOLD : Nat := 3

/-- Connection lifecycle states relevant to the adapter (a subset of the
base connection's states: fully open, closing transition, closed). -/
inductive ConnLife where
  | opened
  | closing
  | closed
deriving Repr, DecidableEq

/-- Observable events of one event-loop pass, in the order they happen. -/
inductive Ev where
  | readAttempt
  | writeAttempt
  | timeoutFired (id : String)
deriving Repr, DecidableEq

/-- Result of the base class's `_handle_read` (external transport): either
data was read within the socket timeout, or `socket.timeout` was raised. -/
inductive ReadOutcome where
  | ok
  | timedOut
deriving Repr, DecidableEq

/-- Result of the base class's `_handle_write`: data moved (`moved`) and
the outbound buffer size afterwards, or `socket.timeout` was raised. -/
inductive WriteOutcome where
  | wrote (moved : Bool) (newSize : Nat)
  | timedOut
deriving Repr, DecidableEq

/-- State of a `BlockingConnection`. -/
structure ConnState where
  connLife : ConnLife
  socketTimeouts : Nat
  framesWrittenWithoutRead : Nat
  timeouts : TimeoutTable
  outboundSize : Nat
  closingCode : Nat
  remoteCloseFrame : Option String
  raised : Option PyErr
  trace : List Ev
deriving Repr, DecidableEq

/-- Python truthiness of an `Option Bool` (`None` is falsy). -/
def pyTruthy : Option Bool → Bool
  | none => false
  | some b => b

/-- `BlockingConnection._handle_read`: delegates to the base reader (which
succeeded when this runs), zeroes `_frames_written_without_read`, and —
having no return statement — returns `None`. -/
def handleRead (st : ConnState) : ConnState × Option Bool :=
  ({ st with framesWrittenWithoutRead := 0 }, none)

/-- `BlockingConnection._on_connection_closed` invoked with
`method_frame=None, from_adapter=True`: no close frame accompanies the
shutdown (so `self.closing` and the remote-close record are untouched),
the state is set to `CONNECTION_CLOSED`, and an `AMQPConnectionError` is
raised when the recorded closing code is not 200. -/
def onConnectionClosed (st : ConnState) : ConnState :=
  let st1 := { st with connLife := ConnLife.closed }
  if st1.closingCode ≠ 200 then
    { st1 with raised := some PyErr.amqpConnectionError }
  else st1

/-- `BlockingConnection._handle_timeout`: counts the consecutive socket
timeout; the guard `self.is_closing and self._socket_timeouts > threshold`
selects `SOCKET_TIMEOUT_CLOSE_THRESHOLD` as the threshold whenever it can
fire (the non-closing threshold choice, the connect-timeout constant, is
dead because of the `is_closing` conjunct), and force-finalizes the
connection when exceeded. -/
def handleTimeout (st : ConnState) : ConnState :=
  let st1 := { st with socketTimeouts := st.socketTimeouts + 1 }
  if st1.connLife = ConnLife.closing ∧
      st1.socketTimeouts > SOCKET_TIMEOUT_CLOSE_THRESHOLD then
    onConnectionClosed st1
  else st1

/-- `BlockingConnection._flush_outbound`: attempts one write only when the
outbound buffer is non-empty; a truthy write result zeroes the consecutive
timeout counter; `socket.timeout` goes to the timeout handler. -/
def flushOutbound (wr : WriteOutcome) (st : ConnState) : ConnState :=
  if st.outboundSize > 0 then
    let st1 := { st with trace := st.trace ++ [Ev.writeAttempt] }
    match wr with
    | WriteOutcome.wrote moved newSize =>
      let st2 := { st1 with outboundSize := newSize }
      if moved then { st2 with socketTimeouts := 0 } else st2
    | WriteOutcome.timedOut => handleTimeout st1
  else st

/-- `process_timeouts` lifted to the connection state, logging each firing
into the trace. -/
def processTimeoutsConn (now : Nat) (st : ConnState) : ConnState :=
  let r := processTimeouts now st.timeouts
  { st with
      timeouts := r.1,
      trace := st.trace ++ r.2.map (fun x => Ev.timeoutFired x.id) }

/-- `BlockingConnection.process_data_events`: one read attempt (resetting
`_socket_timeouts` only if `_handle_read()` returned truthy — it returns
`None`), then `_flush_outbound`, then `process_timeouts`.  An exception
raised inside a step aborts the rest of the pass. -/
def processDataEvents (rd : ReadOutcome) (wr : WriteOutcome) (now : Nat)
    (st : ConnState) : ConnState :=
  let st0 := { st with trace := st.trace ++ [Ev.readAttempt] }
  let st1 :=
    match rd with
    | ReadOutcome.ok =>
      let r := handleRead st0
      if pyTruthy r.2 then { r.1 with socketTimeouts := 0 } else r.1
    | ReadOutcome.timedOut => handleTimeout st0
  if st1.raised.isSome then st1
  else
    let st2 := flushOutbound wr st1
    if st2.raised.isSome then st2
    else processTimeoutsConn now st2

/-- `BlockingConnection._send_frame`: the base class appends the serialized
frame to the outbound buffer; the counter of frames written without an
intervening read is incremented, and on reaching `WRITE_TO_READ_RATIO` it
is zeroed and a full event-loop pass is forced. -/
def sendFrame (rd : ReadOutcome) (wr : WriteOutcome) (now : Nat)
    (st : ConnState) : ConnState :=
  let st1 := { st with
      outboundSize := st.outboundSize + 1,
      framesWrittenWithoutRead := st.framesWrittenWithoutRead + 1 }
  if st1.framesWrittenWithoutRead = WRITE_TO_READ_RATIO then
    processDataEvents rd wr now
      { st1 with framesWrittenWithoutRead := 0 }
  else st1

/-! ### `BlockingChannel`: RPC correlation and public operations -/

/-- A received method frame, identified (as the correlation machinery
identifies it, via `callback._name_or_value`) by its method name. -/
structure Frame where
  name : String
deriving Repr, DecidableEq

/-- `BlockingChannel.NO_RESPONSE_FRAMES`. -/
def NO_RESPONSE_FRAMES : List String :=
  ["Basic.Ack", "Basic.Reject", "Basic.RecoverAsync"]

/-- Channel lifecycle states (`channel.Channel`): OPENING, OPEN, CLOSING,
CLOSED. -/
inductive ChanLife where
  | opening
  | opened
  | closing
  | closed
deriving Repr, DecidableEq

/-- The dynamically typed `acceptable_replies` argument of `_rpc`:
`None`, a Python list of reply keys, or a truthy value of another type
(e.g. a non-empty tuple). -/
inductive PyReplies where
  | none
  | oflist (l : List String)
  | truthyNonList
deriving Repr, DecidableEq

/-- The dynamically typed `callback` argument of `_rpc`: `None`, a
callable, or a non-callable value. -/
inductive PyCallback where
  | none
  | callable
  | nonCallable
deriving Repr, DecidableEq

/-- State of a `BlockingChannel` (plus the two broker capability flags it
reads from its connection). -/
structure ChanState where
  chanLife : ChanLife
  confirmation : Bool
  consumers : List String
  cancelled : List String
  replies : List String
  frames : List (String × Frame)
  registered : List String
  sent : List String
  receivedResponse : Bool
  publisherConfirms : Bool
  basicNack : Bool
  calledBack : List String
deriving Repr, DecidableEq

/-- `BlockingChannel._validate_acceptable_replies` raises `TypeError` iff
the argument is truthy and not a list. -/
def acceptableRepliesInvalid : PyReplies → Bool
  | PyReplies.truthyNonList => true
  | _ => false

/-- `BlockingChannel._validate_callback` raises `TypeError` iff the
argument is neither `None` nor callable. -/
def callbackInvalid : PyCallback → Bool
  | PyCallback.nonCallable => true
  | _ => false

/-- `acceptable_replies or list()`: the list iterated by `_rpc`'s
registration loop. -/
def repliesList : PyReplies → List String
  | PyReplies.oflist l => l
  | _ => []

/-- `BlockingChannel._on_rpc_complete`: appends the frame's key to
`_replies`, stores the frame in `_frames` under that key, and marks the
response received. -/
def onRpcComplete (f : Frame) (st : ChanState) : ChanState :=
  { st with
      replies := st.replies ++ [f.name],
      frames := dictInsert f.name f st.frames,
      receivedResponse := true }

/-- The connection-level dispatcher: a frame arriving for this channel is
delivered to `_on_rpc_complete` iff a registration for its type exists. -/
def deliver (arrival : Option Frame) (st : ChanState) : ChanState :=
  match arrival with
  | some f => if f.name ∈ st.registered then onRpcComplete f st else st
  | none => st

/-- `BlockingChannel._send_method`: hands the method frame to the
connection's send path, then drives the event loop (during which the
pending arrival, if any, is dispatched); returns the state together with
whether the wait loop would spin forever (`wait` requested but no
response was ever recorded). -/
def chanSendMethod (m : Frame) (wait : Bool) (arrival : Option Frame)
    (st : ChanState) : ChanState × Bool :=
  let st1 := { st with
      receivedResponse := false,
      sent := st.sent ++ [m.name] }
  let st2 := deliver arrival st1
  (st2, wait && !st2.receivedResponse)

/-- Result of an embedded RPC call. -/
inductive RpcOut where
  | ret (f : Option Frame)
  | blocked
  | exn (e : PyErr)
deriving Repr, DecidableEq

/-- `BlockingChannel._process_replies`: scans `self._replies` in order for
the first key among this call's reply keys, reads the stored frame
(`KeyError` if the key has no stored frame), marks the response received,
invokes the completion callback if given, deletes the stored frame — but
not the key in `self._replies` — and returns the frame.  Falls off the end
(returning `None`) when nothing matches. -/
def processReplies (keys : List String) (cb : PyCallback) (st : ChanState) :
    RpcOut × ChanState :=
  match st.replies.find? (fun r => keys.contains r) with
  | some r =>
    match dictLookup r st.frames with
    | none => (RpcOut.exn PyErr.keyError, st)
    | some f =>
      let st1 := { st with receivedResponse := true }
      let st2 :=
        if cb = PyCallback.callable then
          { st1 with calledBack := st1.calledBack ++ [f.name] }
        else st1
      (RpcOut.ret (some f), { st2 with frames := dictRemove r st2.frames })
  | none => (RpcOut.ret none, st)

/-- `BlockingChannel._wait_on_response`. -/
def waitOnResponse (m : Frame) : Bool :=
  !(NO_RESPONSE_FRAMES.contains m.name)

/-- `BlockingChannel._rpc`: rejects a closed channel, validates the two
dynamic arguments, registers one dispatcher entry per acceptable reply
type, sends the method (waiting per `_wait_on_response`), and processes
replies. -/
def rpc (m : Frame) (cb : PyCallback) (acceptable : PyReplies)
    (arrival : Option Frame) (st : ChanState) : RpcOut × ChanState :=
  if st.chanLife = ChanLife.closed then (RpcOut.exn PyErr.channelClosed, st)
  else if acceptableRepliesInvalid acceptable then
    (RpcOut.exn PyErr.typeError, st)
  else if callbackInvalid cb then (RpcOut.exn PyErr.typeError, st)
  else
    let keys := repliesList acceptable
    let st1 := { st with
        registered := st.registered ++ keys,
        receivedResponse := false }
    let sm := chanSendMethod m (waitOnResponse m) arrival st1
    if sm.2 then (RpcOut.blocked, sm.1)
    else processReplies keys cb sm.1

/-- Result of a public channel operation (a Python return value or
exception): `None`, a boolean, a frame (or `None` from `_rpc`), an
unbounded wait, or a raised exception. -/
inductive OpOut where
  | retNone
  | retBool (b : Bool)
  | retFrame (f : Option Frame)
  | blocked
  | exn (e : PyErr)
deriving Repr, DecidableEq

/-- Lift an `_rpc` result to an operation result (for operations whose
body is `return self._rpc(...)`). -/
def liftRpc : RpcOut × ChanState → OpOut × ChanState
  | (RpcOut.ret f, st) => (OpOut.retFrame f, st)
  | (RpcOut.blocked, st) => (OpOut.blocked, st)
  | (RpcOut.exn e, st) => (OpOut.exn e, st)

/-- `BlockingChannel.basic_cancel`: silently returns when the consumer tag
is unknown; otherwise records the cancellation and issues the RPC (whose
value it does not return). -/
def basicCancel (tag : String) (nowait : Bool) (arrival : Option Frame)
    (st : ChanState) : OpOut × ChanState :=
  if tag ∉ st.consumers then (OpOut.retNone, st)
  else
    let st1 := { st with cancelled := st.cancelled ++ [tag] }
    let reps := if !nowait then PyReplies.oflist ["Basic.CancelOk"]
      else PyReplies.oflist []
    match rpc ⟨"Basic.Cancel"⟩ PyCallback.callable reps arrival st1 with
    | (RpcOut.ret _, st2) => (OpOut.retNone, st2)
    | (RpcOut.blocked, st2) => (OpOut.blocked, st2)
    | (RpcOut.exn e, st2) => (OpOut.exn e, st2)

/-- `BlockingChannel.basic_publish`: closed-channel guard on `is_open`;
under confirmation mode issues the publish as an RPC accepting
`Basic.Ack`, `Basic.Nack` and `Basic.Reject` and maps the reply frame to
`True` / `False` / `ValueError`; otherwise a fire-and-forget
`_send_method` with `wait=False`. -/
def basicPublish (arrival : Option Frame) (st : ChanState) :
    OpOut × ChanState :=
  if st.chanLife ≠ ChanLife.opened then (OpOut.exn PyErr.channelClosed, st)
  else if st.confirmation then
    match rpc ⟨"Basic.Publish"⟩ PyCallback.none
        (PyReplies.oflist ["Basic.Ack", "Basic.Nack", "Basic.Reject"])
        arrival st with
    | (RpcOut.ret (some f), st1) =>
      if f.name = "Basic.Ack" then (OpOut.retBool true, st1)
      else if f.name = "Basic.Nack" ∨ f.name = "Basic.Reject" then
        (OpOut.retBool false, st1)
      else (OpOut.exn PyErr.valueError, st1)
    | (RpcOut.ret none, st1) => (OpOut.exn PyErr.attributeError, st1)
    | (RpcOut.blocked, st1) => (OpOut.blocked, st1)
    | (RpcOut.exn e, st1) => (OpOut.exn e, st1)
  else
    let sm := chanSendMethod ⟨"Basic.Publish"⟩ false arrival st
    (OpOut.retNone, sm.1)

/-- `BlockingChannel.basic_qos`. -/
def basicQos (arrival : Option Frame) (st : ChanState) : OpOut × ChanState :=
  liftRpc (rpc ⟨"Basic.Qos"⟩ PyCallback.none
    (PyReplies.oflist ["Basic.QosOk"]) arrival st)

/-- `BlockingChannel.basic_recover`. -/
def basicRecover (arrival : Option Frame) (st : ChanState) :
    OpOut × ChanState :=
  liftRpc (rpc ⟨"Basic.Recover"⟩ PyCallback.none
    (PyReplies.oflist ["Basic.RecoverOk"]) arrival st)

/-- `BlockingChannel.confirm_delivery`: requires broker support, sets the
confirmation flag, then issues `Confirm.Select`. -/
def confirmDelivery (nowait : Bool) (arrival : Option Frame)
    (st : ChanState) : OpOut × ChanState :=
  if !st.publisherConfirms || !st.basicNack then
    (OpOut.exn PyErr.methodNotImplemented, st)
  else
    let st1 := { st with confirmation := true }
    let reps := if !nowait then PyReplies.oflist ["Confirm.SelectOk"]
      else PyReplies.oflist []
    match rpc ⟨"Confirm.Select"⟩ PyCallback.none reps arrival st1 with
    | (RpcOut.ret _, st2) => (OpOut.retNone, st2)
    | (RpcOut.blocked, st2) => (OpOut.blocked, st2)
    | (RpcOut.exn e, st2) => (OpOut.exn e, st2)

/-- `BlockingChannel.exchange_bind`. -/
def exchangeBind (nowait : Bool) (arrival : Option Frame) (st : ChanState) :
    OpOut × ChanState :=
  let reps := if !nowait then PyReplies.oflist ["Exchange.BindOk"]
    else PyReplies.oflist []
  liftRpc (rpc ⟨"Exchange.Bind"⟩ PyCallback.none reps arrival st)

/-- `BlockingChannel.exchange_declare`. -/
def exchangeDeclare (nowait : Bool) (arrival : Option Frame)
    (st : ChanState) : OpOut × ChanState :=
  let reps := if !nowait then PyReplies.oflist ["Exchange.DeclareOk"]
    else PyReplies.oflist []
  liftRpc (rpc ⟨"Exchange.Declare"⟩ PyCallback.none reps arrival st)

/-- `BlockingChannel.exchange_delete`. -/
def exchangeDelete (nowait : Bool) (arrival : Option Frame)
    (st : ChanState) : OpOut × ChanState :=
  let reps := if !nowait then PyReplies.oflist ["Exchange.DeleteOk"]
    else PyReplies.oflist []
  liftRpc (rpc ⟨"Exchange.Delete"⟩ PyCallback.none reps arrival st)

/-- `BlockingChannel.exchange_unbind`. -/
def exchangeUnbind (nowait : Bool) (arrival : Option Frame)
    (st : ChanState) : OpOut × ChanState :=
  let reps := if !nowait then PyReplies.oflist ["Exchange.UnbindOk"]
    else PyReplies.oflist []
  liftRpc (rpc ⟨"Exchange.Unbind"⟩ PyCallback.none reps arrival st)

/-- `BlockingChannel.queue_bind`. -/
def queueBind (nowait : Bool) (arrival : Option Frame) (st : ChanState) :
    OpOut × ChanState :=
  let reps := if !nowait then PyReplies.oflist ["Queue.BindOk"]
    else PyReplies.oflist []
  liftRpc (rpc ⟨"Queue.Bind"⟩ PyCallback.none reps arrival st)

/-- `BlockingChannel.queue_declare`. -/
def queueDeclare (nowait : Bool) (arrival : Option Frame) (st : ChanState) :
    OpOut × ChanState :=
  let reps := if !nowait then PyReplies.oflist ["Queue.DeclareOk"]
    else PyReplies.oflist []
  liftRpc (rpc ⟨"Queue.Declare"⟩ PyCallback.none reps arrival st)

/-- `BlockingChannel.queue_delete`. -/
def queueDelete (nowait : Bool) (arrival : Option Frame) (st : ChanState) :
    OpOut × ChanState :=
  let reps := if !nowait then PyReplies.oflist ["Queue.DeleteOk"]
    else PyReplies.oflist []
  liftRpc (rpc ⟨"Queue.Delete"⟩ PyCallback.none reps arrival st)

/-- `BlockingChannel.queue_purge`. -/
def queuePurge (nowait : Bool) (arrival : Option Frame) (st : ChanState) :
    OpOut × ChanState :=
  let reps := if !nowait then PyReplies.oflist ["Queue.PurgeOk"]
    else PyReplies.oflist []
  liftRpc (rpc ⟨"Queue.Purge"⟩ PyCallback.none reps arrival st)

/-- `BlockingChannel.queue_unbind` (always waits for `Queue.UnbindOk`). -/
def queueUnbind (arrival : Option Frame) (st : ChanState) :
    OpOut × ChanState :=
  liftRpc (rpc ⟨"Queue.Unbind"⟩ PyCallback.none
    (PyReplies.oflist ["Queue.UnbindOk"]) arrival st)

/-- `BlockingChannel.tx_select`. -/
def txSelect (arrival : Option Frame) (st : ChanState) : OpOut × ChanState :=
  liftRpc (rpc ⟨"Tx.Select"⟩ PyCallback.none
    (PyReplies.oflist ["Tx.SelectOk"]) arrival st)

/-- Modelled from the spec: `channel.Channel._validate_channel_and_callback`,
the base-class guard that `tx_commit` and `tx_rollback` invoke before their
RPC (`pika/channel.py` is not under src/).  The spec's invariant — "a
closed channel accepts no further requests; any attempt fails immediately
without touching the network" — gives the channel-closed fault on a closed
channel, before any network activity; nothing beyond that invariant is
modelled. -/
def validateChannelClosed (st : ChanState) : Option PyErr :=
  if st.chanLife = ChanLife.closed then some PyErr.channelClosed else none

/-- Modelled from the spec: `channel.Channel.basic_get`, the base-class
request issuer that `BlockingChannel.basic_get` delegates to
(`pika/channel.py` is not under src/).  On a closed channel it fails
immediately with the channel-closed fault and no frame is sent (same
spec invariant as `validateChannelClosed`); otherwise the `Basic.Get`
method frame is handed to the channel's `_send_method`. -/
def baseBasicGet (arrival : Option Frame) (st : ChanState) :
    Option PyErr × ChanState :=
  if st.chanLife = ChanLife.closed then (some PyErr.channelClosed, st)
  else (none, (chanSendMethod ⟨"Basic.Get"⟩ true arrival st).1)

/-- `BlockingChannel.basic_get`: clears the stored response, delegates to
the base class's `basic_get` (see `baseBasicGet`), then polls the event
loop until a response is recorded (`while not self._response`).  The
`Basic.GetOk` delivery path (`_on_basic_get`) is outside this embedding,
so the live-channel wait is represented as the unbounded poll. -/
def basicGet (arrival : Option Frame) (st : ChanState) : OpOut × ChanState :=
  match baseBasicGet arrival st with
  | (some e, st1) => (OpOut.exn e, st1)
  | (none, st1) => (OpOut.blocked, st1)

/-- `BlockingChannel.tx_commit`: calls the base class's
`_validate_channel_and_callback` (see `validateChannelClosed`), then
issues the `Tx.Commit` RPC. -/
def txCommit (arrival : Option Frame) (st : ChanState) : OpOut × ChanState :=
  match validateChannelClosed st with
  | some e => (OpOut.exn e, st)
  | none => liftRpc (rpc ⟨"Tx.Commit"⟩ PyCallback.none
      (PyReplies.oflist ["Tx.CommitOk"]) arrival st)

/-- `BlockingChannel.tx_rollback`: calls the base class's
`_validate_channel_and_callback` (see `validateChannelClosed`), then
issues the `Tx.Rollback` RPC. -/
def txRollback (arrival : Option Frame) (st : ChanState) :
    OpOut × ChanState :=
  match validateChannelClosed st with
  | some e => (OpOut.exn e, st)
  | none => liftRpc (rpc ⟨"Tx.Rollback"⟩ PyCallback.none
      (PyReplies.oflist ["Tx.RollbackOk"]) arrival st)

/-- `BlockingChannel.start_consuming`: `while len(self._consumers):`
drives the connection's event loop; with no registered consumers it
returns `None` immediately, sending nothing, and with consumers still
registered it keeps polling (the loop exits only when delivered
cancellations empty the consumer table, which never happens on a dead
channel). -/
def startConsuming (st : ChanState) : OpOut × ChanState :=
  if st.consumers.length ≠ 0 then (OpOut.blocked, st)
  else (OpOut.retNone, st)

/-- The `else` arm of `BlockingChannel.stop_consuming`: iterate the
snapshot of `self._consumers.keys()` and `basic_cancel` each tag; an
exception from a cancel propagates immediately. -/
def stopConsumingAll :
    List String → Option Frame → ChanState → OpOut × ChanState
  | [], _, st => (OpOut.retNone, st)
  | tag :: rest, arrival, st =>
    match basicCancel tag false arrival st with
    | (OpOut.retNone, st1) => stopConsumingAll rest arrival st1
    | r => r

/-- `BlockingChannel.stop_consuming`: with a truthy consumer tag,
`basic_cancel` that tag; otherwise cancel every registered consumer.  The
final `self.wait = True` assignment touches only the wait flag and is not
otherwise observable. -/
def stopConsuming (tag? : Option String) (arrival : Option Frame)
    (st : ChanState) : OpOut × ChanState :=
  match tag? with
  | some tag =>
    match basicCancel tag false arrival st with
    | (OpOut.retNone, st1) => (OpOut.retNone, st1)
    | r => r
  | none => stopConsumingAll st.consumers arrival st

/-- The public channel operations of the source file: the `_rpc`-path
operations, `basic_cancel`'s guard, `basic_publish`'s `is_open` guard,
the consume-lifecycle loops, and the operations that delegate to the
base class (`basic_get`, `tx_commit`, `tx_rollback`). -/
inductive ChanOp where
  | opBasicCancel (tag : String) (nowait : Bool)
  | opBasicPublish
  | opBasicQos
  | opBasicRecover
  | opConfirmDelivery (nowait : Bool)
  | opExchangeBind (nowait : Bool)
  | opExchangeDeclare (nowait : Bool)
  | opExchangeDelete (nowait : Bool)
  | opExchangeUnbind (nowait : Bool)
  | opQueueBind (nowait : Bool)
  | opQueueDeclare (nowait : Bool)
  | opQueueDelete (nowait : Bool)
  | opQueuePurge (nowait : Bool)
  | opQueueUnbind
  | opTxSelect
  | opTxCommit
  | opTxRollback
  | opBasicGet
  | opStartConsuming
  | opStopConsuming (tag? : Option String)
deriving Repr, DecidableEq

/-- Dispatch one public channel operation. -/
def runOp : ChanOp → Option Frame → ChanState → OpOut × ChanState
  | ChanOp.opBasicCancel tag nowait, arrival, st => basicCancel tag nowait arrival st
  | ChanOp.opBasicPublish, arrival, st => basicPublish arrival st
  | ChanOp.opBasicQos, arrival, st => basicQos arrival st
  | ChanOp.opBasicRecover, arrival, st => basicRecover arrival st
  | ChanOp.opConfirmDelivery nowait, arrival, st => confirmDelivery nowait arrival st
  | ChanOp.opExchangeBind nowait, arrival, st => exchangeBind nowait arrival st
  | ChanOp.opExchangeDeclare nowait, arrival, st => exchangeDeclare nowait arrival st
  | ChanOp.opExchangeDelete nowait, arrival, st => exchangeDelete nowait arrival st
  | ChanOp.opExchangeUnbind nowait, arrival, st => exchangeUnbind nowait arrival st
  | ChanOp.opQueueBind nowait, arrival, st => queueBind nowait arrival st
  | ChanOp.opQueueDeclare nowait, arrival, st => queueDeclare nowait arrival st
  | ChanOp.opQueueDelete nowait, arrival, st => queueDelete nowait arrival st
  | ChanOp.opQueuePurge nowait, arrival, st => queuePurge nowait arrival st
  | ChanOp.opQueueUnbind, arrival, st => queueUnbind arrival st
  | ChanOp.opTxSelect, arrival, st => txSelect arrival st
  | ChanOp.opTxCommit, arrival, st => txCommit arrival st
  | ChanOp.opTxRollback, arrival, st => txRollback arrival st
  | ChanOp.opBasicGet, arrival, st => basicGet arrival st
  | ChanOp.opStartConsuming, _, st => startConsuming st
  | ChanOp.opStopConsuming tag?, arrival, st => stopConsuming tag? arrival st

/-! ### Lemmas about the timeout scheduler -/

theorem dictContains_remove_self {α : Type} (k : String)
    (l : List (String × α)) : dictContains k (dictRemove k l) = false := by
  simp [dictContains, dictLookup_remove]

theorem mem_keys_iff_contains {α : Type} (k : String) (l : List (String × α)) :
    k ∈ l.map Prod.fst ↔ dictContains k l = true := by
  induction l with
  | nil => simp [dictContains, dictLookup]
  | cons p ps ih =>
    by_cases hpk : p.1 = k
    · simp [dictContains, dictLookup, hpk]
    · simp only [List.map_cons, List.mem_cons, dictContains, dictLookup, hpk,
        if_false]
      constructor
      · intro h
        rcases h with h | h
        · exact absurd h.symm hpk
        · exact (ih.mp h)
      · intro h
        exact Or.inr (ih.mpr h)

theorem processTimeoutsAux_fired_sublist (now : Nat) :
    ∀ (ks : List String) (tbl : TimeoutTable) (acc : List FiredTimeout),
      ∃ s, (processTimeoutsAux now ks tbl acc).2 = acc ++ s ∧
        List.Sublist (s.map FiredTimeout.id) ks := by
  intro ks
  induction ks with
  | nil =>
    intro tbl acc
    exact ⟨[], by simp [processTimeoutsAux], List.nil_sublist []⟩
  | cons k ks ih =>
    intro tbl acc
    rcases hL : dictLookup k tbl with _ | e
    · have hd : deadlinePassed now tbl k = false := by
        simp [deadlinePassed, hL]
      rcases ih tbl acc with ⟨s, hs, hsub⟩
      refine ⟨s, ?_, hsub.cons k⟩
      simp only [processTimeoutsAux, hd, Bool.false_eq_true, if_false]
      exact hs
    · by_cases hdl : e.deadline ≤ now
      · have hd : deadlinePassed now tbl k = true := by
          simp [deadlinePassed, hL, hdl]
        rcases ih (runTimeoutAction e.method (dictRemove k tbl))
            (acc ++ [⟨k, e, dictContains k (dictRemove k tbl)⟩]) with
          ⟨s, hs, hsub⟩
        refine ⟨⟨k, e, dictContains k (dictRemove k tbl)⟩ :: s, ?_, ?_⟩
        · simp only [processTimeoutsAux, hd, if_true, hL]
          rw [hs, List.append_assoc]
          simp
        · simpa using hsub.cons₂ k
      · have hd : deadlinePassed now tbl k = false := by
          simp [deadlinePassed, hL, hdl]
        rcases ih tbl acc with ⟨s, hs, hsub⟩
        refine ⟨s, ?_, hsub.cons k⟩
        simp only [processTimeoutsAux, hd, Bool.false_eq_true, if_false]
        exact hs

theorem processTimeoutsAux_fired_deadline (now : Nat) :
    ∀ (ks : List String) (tbl : TimeoutTable) (acc : List FiredTimeout),
      (∀ x ∈ acc, x.entry.deadline ≤ now) →
      ∀ x ∈ (processTimeoutsAux now ks tbl acc).2, x.entry.deadline ≤ now := by
  intro ks
  induction ks with
  | nil =>
    intro tbl acc hacc
    simpa [processTimeoutsAux] using hacc
  | cons k ks ih =>
    intro tbl acc hacc
    rcases hL : dictLookup k tbl with _ | e
    · have hd : deadlinePassed now tbl k = false := by
        simp [deadlinePassed, hL]
      simp only [processTimeoutsAux, hd, Bool.false_eq_true, if_false]
      exact ih tbl acc hacc
    · by_cases hdl : e.deadline ≤ now
      · have hd : deadlinePassed now tbl k = true := by
          simp [deadlinePassed, hL, hdl]
        simp only [processTimeoutsAux, hd, if_true, hL]
        refine ih _ _ ?_
        intro x hx
        rcases List.mem_append.mp hx with hx | hx
        · exact hacc x hx
        · simp at hx
          rw [hx]
          exact hdl
      · have hd : deadlinePassed now tbl k = false := by
          simp [deadlinePassed, hL, hdl]
        simp only [processTimeoutsAux, hd, Bool.false_eq_true, if_false]
        exact ih tbl acc hacc

theorem processTimeoutsAux_fired_popped (now : Nat) :
    ∀ (ks : List String) (tbl : TimeoutTable) (acc : List FiredTimeout),
      (∀ x ∈ acc, x.presentAtInvoke = false) →
      ∀ x ∈ (processTimeoutsAux now ks tbl acc).2,
        x.presentAtInvoke = false := by
  intro ks
  induction ks with
  | nil =>
    intro tbl acc hacc
    simpa [processTimeoutsAux] using hacc
  | cons k ks ih =>
    intro tbl acc hacc
    rcases hL : dictLookup k tbl with _ | e
    · have hd : deadlinePassed now tbl k = false := by
        simp [deadlinePassed, hL]
      simp only [processTimeoutsAux, hd, Bool.false_eq_true, if_false]
      exact ih tbl acc hacc
    · by_cases hdl : e.deadline ≤ now
      · have hd : deadlinePassed now tbl k = true := by
          simp [deadlinePassed, hL, hdl]
        simp only [processTimeoutsAux, hd, if_true, hL]
        refine ih _ _ ?_
        intro x hx
        rcases List.mem_append.mp hx with hx | hx
        · exact hacc x hx
        · simp at hx
          rw [hx]
          exact dictContains_remove_self k tbl
      · have hd : deadlinePassed now tbl k = false := by
          simp [deadlinePassed, hL, hdl]
        simp only [processTimeoutsAux, hd, Bool.false_eq_true, if_false]
        exact ih tbl acc hacc

theorem mem_of_mem_dictRemove {α : Type} {k : String} {p : String × α}
    {l : List (String × α)} (h : p ∈ dictRemove k l) : p ∈ l :=
  List.mem_of_mem_filter h

theorem processTimeoutsAux_fired_mem_orig (now : Nat) (orig : TimeoutTable) :
    ∀ (ks : List String) (tbl : TimeoutTable) (acc : List FiredTimeout),
      ks.Nodup →
      (∀ k, k ∈ ks → dictLookup k tbl = dictLookup k orig) →
      (∀ k e, k ∈ ks → dictLookup k orig = some e →
        ∀ off mint, e.method = TAction.reschedule off mint →
          fmtTime mint ∉ ks) →
      ∀ x ∈ (processTimeoutsAux now ks tbl acc).2,
        x ∈ acc ∨ (x.id, x.entry) ∈ orig := by
  intro ks
  induction ks with
  | nil =>
    intro tbl acc _ _ _ x hx
    simp only [processTimeoutsAux] at hx
    exact Or.inl hx
  | cons k ks ih =>
    intro tbl acc hnd h1 h2
    have hndk : k ∉ ks := (List.nodup_cons.mp hnd).1
    have hndks : ks.Nodup := (List.nodup_cons.mp hnd).2
    rcases hL : dictLookup k tbl with _ | e
    · have hd : deadlinePassed now tbl k = false := by
        simp [deadlinePassed, hL]
      simp only [processTimeoutsAux, hd, Bool.false_eq_true, if_false]
      exact ih tbl acc hndks
        (fun k' hk' => h1 k' (List.mem_cons_of_mem k hk'))
        (fun k' e' hk' he' off mint hm hmem' =>
          h2 k' e' (List.mem_cons_of_mem k hk') he' off mint hm
            (List.mem_cons_of_mem k hmem'))
    · by_cases hdl : e.deadline ≤ now
      · have hd : deadlinePassed now tbl k = true := by
          simp [deadlinePassed, hL, hdl]
        simp only [processTimeoutsAux, hd, if_true, hL]
        have horig : dictLookup k orig = some e := by
          rw [← h1 k (List.mem_cons_self k ks)]
          exact hL
        have hmem : (k, e) ∈ orig := dictLookup_mem horig
        have h1' : ∀ k', k' ∈ ks →
            dictLookup k' (runTimeoutAction e.method (dictRemove k tbl))
              = dictLookup k' orig := by
          intro k' hk'
          have hkk : k' ≠ k := fun hx => hndk (hx ▸ hk')
          have hrem : dictLookup k' (dictRemove k tbl) = dictLookup k' tbl := by
            rw [dictLookup_remove]
            simp [hkk]
          cases hm : e.method with
          | noop =>
            simp only [runTimeoutAction, hrem]
            exact h1 k' (List.mem_cons_of_mem k hk')
          | reschedule offset mint =>
            have hfresh : fmtTime mint ∉ k :: ks :=
              h2 k e (List.mem_cons_self k ks) horig offset mint hm
            have hne : k' ≠ fmtTime mint := by
              intro hx
              exact hfresh (hx ▸ List.mem_cons_of_mem k hk')
            simp only [runTimeoutAction, addTimeout]
            rw [dictLookup_insert_ne _ _ _ _ hne, hrem]
            exact h1 k' (List.mem_cons_of_mem k hk')
        have h2' : ∀ k' e', k' ∈ ks → dictLookup k' orig = some e' →
            ∀ off mint, e'.method = TAction.reschedule off mint →
              fmtTime mint ∉ ks := by
          intro k' e' hk' he' off mint hm
          intro hmem'
          exact h2 k' e' (List.mem_cons_of_mem k hk') he' off mint hm
            (List.mem_cons_of_mem k hmem')
        intro x hx
        rcases ih (runTimeoutAction e.method (dictRemove k tbl))
            (acc ++ [⟨k, e, dictContains k (dictRemove k tbl)⟩])
            hndks h1' h2' x hx with hx' | hx'
        · rcases List.mem_append.mp hx' with hx'' | hx''
          · exact Or.inl hx''
          · simp at hx''
            rw [hx'']
            exact Or.inr hmem
        · exact Or.inr hx'
      · have hd : deadlinePassed now tbl k = false := by
          simp [deadlinePassed, hL, hdl]
        simp only [processTimeoutsAux, hd, Bool.false_eq_true, if_false]
        exact ih tbl acc hndks
          (fun k' hk' => h1 k' (List.mem_cons_of_mem k hk'))
          (fun k' e' hk' he' off mint hm hmem' =>
          h2 k' e' (List.mem_cons_of_mem k hk') he' off mint hm
            (List.mem_cons_of_mem k hmem'))

theorem processTimeoutsAux_noop_absent (now : Nat) :
    ∀ (ks : List String) (tbl : TimeoutTable) (acc : List FiredTimeout),
      (∀ p ∈ tbl, p.2.method = TAction.noop) →
      ∀ k, dictContains k tbl = false →
        dictContains k (processTimeoutsAux now ks tbl acc).1 = false := by
  intro ks
  induction ks with
  | nil =>
    intro tbl acc _ k hk
    simpa [processTimeoutsAux] using hk
  | cons k0 ks ih =>
    intro tbl acc hnoop k hk
    rcases hL : dictLookup k0 tbl with _ | e
    · have hd : deadlinePassed now tbl k0 = false := by
        simp [deadlinePassed, hL]
      simp only [processTimeoutsAux, hd, Bool.false_eq_true, if_false]
      exact ih tbl acc hnoop k hk
    · by_cases hdl : e.deadline ≤ now
      · have hd : deadlinePassed now tbl k0 = true := by
          simp [deadlinePassed, hL, hdl]
        simp only [processTimeoutsAux, hd, if_true, hL]
        have hm : e.method = TAction.noop := hnoop (k0, e) (dictLookup_mem hL)
        rw [hm]
        simp only [runTimeoutAction]
        refine ih (dictRemove k0 tbl) _ ?_ k ?_
        · intro p hp
          exact hnoop p (mem_of_mem_dictRemove hp)
        · unfold dictContains at hk ⊢
          rw [dictLookup_remove]
          by_cases hkk : k = k0
          · simp [hkk]
          · simpa [hkk] using hk
      · have hd : deadlinePassed now tbl k0 = false := by
          simp [deadlinePassed, hL, hdl]
        simp only [processTimeoutsAux, hd, Bool.false_eq_true, if_false]
        exact ih tbl acc hnoop k hk

theorem processTimeoutsAux_noop_fired_absent (now : Nat) :
    ∀ (ks : List String) (tbl : TimeoutTable) (acc : List FiredTimeout),
      (∀ p ∈ tbl, p.2.method = TAction.noop) →
      ∀ x ∈ (processTimeoutsAux now ks tbl acc).2,
        x ∈ acc ∨
          dictContains x.id (processTimeoutsAux now ks tbl acc).1 = false := by
  intro ks
  induction ks with
  | nil =>
    intro tbl acc _ x hx
    simp only [processTimeoutsAux] at hx ⊢
    exact Or.inl hx
  | cons k0 ks ih =>
    intro tbl acc hnoop x hx
    rcases hL : dictLookup k0 tbl with _ | e
    · have hd : deadlinePassed now tbl k0 = false := by
        simp [deadlinePassed, hL]
      simp only [processTimeoutsAux, hd, Bool.false_eq_true, if_false] at hx ⊢
      exact ih tbl acc hnoop x hx
    · by_cases hdl : e.deadline ≤ now
      · have hd : deadlinePassed now tbl k0 = true := by
          simp [deadlinePassed, hL, hdl]
        simp only [processTimeoutsAux, hd, if_true, hL] at hx ⊢
        have hm : e.method = TAction.noop := hnoop (k0, e) (dictLookup_mem hL)
        rw [hm] at hx ⊢
        simp only [runTimeoutAction] at hx ⊢
        have hnoop' : ∀ p ∈ dictRemove k0 tbl, p.2.method = TAction.noop :=
          fun p hp => hnoop p (mem_of_mem_dictRemove hp)
        rcases ih (dictRemove k0 tbl)
            (acc ++ [⟨k0, e, dictContains k0 (dictRemove k0 tbl)⟩])
            hnoop' x hx with hx' | hx'
        · rcases List.mem_append.mp hx' with hx'' | hx''
          · exact Or.inl hx''
          · simp at hx''
            right
            rw [hx'']
            exact processTimeoutsAux_noop_absent now ks (dictRemove k0 tbl) _
              hnoop' k0 (dictContains_remove_self k0 tbl)
        · exact Or.inr hx'
      · have hd : deadlinePassed now tbl k0 = false := by
          simp [deadlinePassed, hL, hdl]
        simp only [processTimeoutsAux, hd, Bool.false_eq_true, if_false] at hx ⊢
        exact ih tbl acc hnoop x hx

/-- C6: every scheduled timeout entry fires only once its absolute
deadline has been reached (`_deadline_passed` compares the stored deadline
against the clock), fires at most once in a pass and is removed by
firing, cancelling a pending entry removes it so it never fires, and
`remove_timeout` on an unknown (or already fired, hence removed) id is a
no-op. -/
theorem C6_timeout_lifecycle (now : Nat) (tbl : TimeoutTable)
    (hnd : (tbl.map Prod.fst).Nodup) :
    (∀ x ∈ (processTimeouts now tbl).2, x.entry.deadline ≤ now) ∧
    ((processTimeouts now tbl).2.map FiredTimeout.id).Nodup ∧
    (∀ timeoutId, dictContains timeoutId tbl = false →
      removeTimeout timeoutId tbl = tbl) ∧
    (∀ timeoutId,
      dictContains timeoutId (removeTimeout timeoutId tbl) = false) ∧
    (∀ timeoutId now', timeoutId ∉
      ((processTimeouts now' (removeTimeout timeoutId tbl)).2.map
        FiredTimeout.id)) ∧
    ((∀ p ∈ tbl, p.2.method = TAction.noop) →
      ∀ x ∈ (processTimeouts now tbl).2,
        dictContains x.id (processTimeouts now tbl).1 = false) := by
  have hrm : ∀ timeoutId,
      dictContains timeoutId (removeTimeout timeoutId tbl) = false := by
    intro timeoutId
    unfold removeTimeout
    by_cases hc : dictContains timeoutId tbl
    · simp only [hc, if_true]
      exact dictContains_remove_self timeoutId tbl
    · rw [if_neg hc]
      simpa using hc
  refine ⟨?_, ?_, ?_, hrm, ?_, ?_⟩
  · exact processTimeoutsAux_fired_deadline now (tbl.map Prod.fst) tbl []
      (by intro x hx; simp at hx)
  · rcases processTimeoutsAux_fired_sublist now (tbl.map Prod.fst) tbl []
      with ⟨s, hs, hsub⟩
    unfold processTimeouts
    rw [hs]
    simpa using List.Nodup.sublist hsub hnd
  · intro timeoutId hc
    unfold removeTimeout
    simp [hc]
  · intro timeoutId now'
    intro hmem
    rcases processTimeoutsAux_fired_sublist now'
        ((removeTimeout timeoutId tbl).map Prod.fst)
        (removeTimeout timeoutId tbl) [] with ⟨s, hs, hsub⟩
    unfold processTimeouts at hmem
    rw [hs] at hmem
    simp only [List.nil_append] at hmem
    have hkeys : timeoutId ∈ (removeTimeout timeoutId tbl).map Prod.fst :=
      List.Sublist.subset hsub hmem
    have := (mem_keys_iff_contains timeoutId (removeTimeout timeoutId tbl)).mp
      hkeys
    rw [hrm timeoutId] at this
    exact Bool.false_ne_true this
  · intro hnoop x hx
    have := processTimeoutsAux_noop_fired_absent now (tbl.map Prod.fst) tbl []
      hnoop x hx
    rcases this with h | h
    · simp at h
    · exact h

/-- Witness for C6 at a concrete one-entry table: the entry fired by a
pass at time 10 had deadline 5 ≤ 10. -/
theorem C6_timeout_lifecycle_witness :
    (⟨"7", ⟨5, TAction.noop⟩, false⟩ : FiredTimeout).entry.deadline ≤ 10 :=
  (C6_timeout_lifecycle 10 [("7", ⟨5, TAction.noop⟩)] (by decide)).1
    ⟨"7", ⟨5, TAction.noop⟩, false⟩ (by decide)

/-- C7: in one pass of `process_timeouts`, every fired entry has been
popped from the table before its action runs, only entries present in the
table at the start of the pass fire (in particular an entry added by a
re-scheduling action during the pass, under a freshly minted id, does not
fire in that same pass even if its deadline already lies in the past), and
no id fires twice in the pass. -/
theorem C7_pop_before_invoke_no_refire (now : Nat) (tbl : TimeoutTable)
    (hnd : (tbl.map Prod.fst).Nodup)
    (hfresh : ∀ p ∈ tbl, ∀ off mint,
      p.2.method = TAction.reschedule off mint →
        fmtTime mint ∉ tbl.map Prod.fst) :
    (∀ x ∈ (processTimeouts now tbl).2,
      x.presentAtInvoke = false ∧ (x.id, x.entry) ∈ tbl) ∧
    ((processTimeouts now tbl).2.map FiredTimeout.id).Nodup := by
  constructor
  · intro x hx
    refine ⟨?_, ?_⟩
    · exact processTimeoutsAux_fired_popped now (tbl.map Prod.fst) tbl []
        (by intro y hy; simp at hy) x hx
    · have h2 : ∀ k e, k ∈ tbl.map Prod.fst → dictLookup k tbl = some e →
          ∀ off mint, e.method = TAction.reschedule off mint →
            fmtTime mint ∉ tbl.map Prod.fst := by
        intro k e _ he off mint hm
        exact hfresh (k, e) (dictLookup_mem he) off mint hm
      rcases processTimeoutsAux_fired_mem_orig now tbl (tbl.map Prod.fst)
          tbl [] hnd (fun k _ => rfl) h2 x hx with h | h
      · simp at h
      · exact h
  · rcases processTimeoutsAux_fired_sublist now (tbl.map Prod.fst) tbl []
      with ⟨s, hs, hsub⟩
    unfold processTimeouts
    rw [hs]
    simpa using List.Nodup.sublist hsub hnd

/-- Witness for C7 at a table whose single entry re-schedules itself with
a past deadline under the fresh id "8": the pass fires it once, with the
entry already popped at invocation. -/
theorem C7_pop_before_invoke_no_refire_witness :
    ((⟨"5", ⟨0, TAction.reschedule 0 8⟩, false⟩ : FiredTimeout).presentAtInvoke
      = false) ∧
    ("5", (⟨0, TAction.reschedule 0 8⟩ : TimeoutEntry))
      ∈ [("5", (⟨0, TAction.reschedule 0 8⟩ : TimeoutEntry))] :=
  (C7_pop_before_invoke_no_refire 3 [("5", ⟨0, TAction.reschedule 0 8⟩)]
    (by decide)
    (by
      intro p hp off mint hm
      simp only [List.mem_singleton] at hp
      subst hp
      simp only [TAction.reschedule.injEq] at hm
      rcases hm with ⟨_, h2⟩
      subst h2
      decide)).1
    ⟨"5", ⟨0, TAction.reschedule 0 8⟩, false⟩ (by decide)

/-- C10: `add_timeout` mints the id from the observed clock reading, so a
second call observing the same reading returns the same id and its dict
assignment silently replaces the first entry, whose action is lost and
never fires. -/
theorem C10_same_reading_overwrites (tbl : TimeoutTable)
    (now d1 d2 : Nat) (a1 a2 : TAction) :
    (addTimeout now d2 a2 (addTimeout now d1 a1 tbl).2).1
      = (addTimeout now d1 a1 tbl).1 ∧
    dictLookup (addTimeout now d1 a1 tbl).1
        (addTimeout now d2 a2 (addTimeout now d1 a1 tbl).2).2
      = some ⟨d2 + now, a2⟩ ∧
    (a1 ≠ a2 → ∀ now',
      ((processTimeouts now'
          (addTimeout now d2 a2 (addTimeout now d1 a1 []).2).2).2.all
        (fun x => !(x.entry.method == a1))) = true) := by
  refine ⟨rfl, ?_, ?_⟩
  · show dictLookup (fmtTime now)
      (dictInsert (fmtTime now) ⟨d2 + now, a2⟩
        (dictInsert (fmtTime now) ⟨d1 + now, a1⟩ tbl)) = some ⟨d2 + now, a2⟩
    exact dictLookup_insert_self _ _ _
  · intro hne now'
    have ht2 : (addTimeout now d2 a2 (addTimeout now d1 a1 []).2).2
        = [(fmtTime now, ⟨d2 + now, a2⟩)] := by
      simp [addTimeout, dictInsert, dictContains, dictLookup]
    rw [ht2]
    have hba : (a2 == a1) = false := by
      simp only [beq_eq_false_iff_ne, ne_eq]
      exact fun h => hne h.symm
    by_cases hdl : d2 + now ≤ now'
    · simp [processTimeouts, processTimeoutsAux, deadlinePassed, dictLookup,
        hdl, hba]
    · simp [processTimeouts, processTimeoutsAux, deadlinePassed, dictLookup,
        hdl]

/-- Witness for C10: two `add_timeout` calls at reading 100 with distinct
actions; a pass at time 150 fires only the second action. -/
theorem C10_same_reading_overwrites_witness :
    ((processTimeouts 150
        (addTimeout 100 2 (TAction.reschedule 3 7)
          (addTimeout 100 1 TAction.noop []).2).2).2.all
      (fun x => !(x.entry.method == TAction.noop))) = true :=
  (C10_same_reading_overwrites [] 100 1 2 TAction.noop
    (TAction.reschedule 3 7)).2.2 (by decide) 150

/-! ### Connection-level claims -/

/-- C1 (divergence witness): `process_data_events` performs the read
attempt first (and, with an empty outbound buffer, no write attempt), and
a successful read resets the frames-written-since-read counter — but it
does not reset the consecutive-timeout counter, because the overridden
`_handle_read` has no return statement: `if self._handle_read():` tests
`None`, so the reset branch is dead.  Evaluated at a state with
`_socket_timeouts = 5`, the counter survives the successful read. -/
theorem C1_read_success_leaves_socket_timeouts :
    (processDataEvents ReadOutcome.ok (WriteOutcome.wrote true 0) 0
        ⟨ConnLife.opened, 5, 7, [], 0, 200, none, none, []⟩).socketTimeouts
      = 5 ∧
    (processDataEvents ReadOutcome.ok (WriteOutcome.wrote true 0) 0
        ⟨ConnLife.opened, 5, 7, [], 0, 200, none, none, []⟩).framesWrittenWithoutRead
      = 0 ∧
    (processDataEvents ReadOutcome.ok (WriteOutcome.wrote true 0) 0
        ⟨ConnLife.opened, 5, 7, [], 0, 200, none, none, []⟩).trace
      = [Ev.readAttempt] := by
  decide

/-- `handleTimeout` never moves a fully open connection out of the open
state: the force-close branch requires `is_closing`. -/
theorem handleTimeout_preserves_opened (st : ConnState)
    (h : st.connLife = ConnLife.opened) :
    (handleTimeout st).connLife = ConnLife.opened := by
  unfold handleTimeout
  rw [if_neg]
  · exact h
  · intro hc
    rw [h] at hc
    exact absurd hc.1 (by decide)

/-- C3: the closing-state threshold (3) is strictly below the open-state
constant (12); behaviourally, an open connection survives any number of
consecutive socket timeouts (the force-close branch requires a closing
transition), while a closing connection whose consecutive-timeout count
exceeds the closing threshold is forced into CLOSED without any remote
close frame having been received. -/
theorem C3_closing_threshold_policy :
    SOCKET_TIMEOUT_CLOSE_THRESHOLD < SOCKET_TIMEOUT_THRESHOLD ∧
    (∀ st : ConnState, st.connLife = ConnLife.opened →
      ∀ k, (handleTimeout^[k] st).connLife = ConnLife.opened) ∧
    (∀ st : ConnState, st.connLife = ConnLife.closing →
      st.socketTimeouts ≥ SOCKET_TIMEOUT_CLOSE_THRESHOLD →
      (handleTimeout st).connLife = ConnLife.closed ∧
      (handleTimeout st).remoteCloseFrame = st.remoteCloseFrame) := by
  refine ⟨by decide, ?_, ?_⟩
  · intro st h k
    induction k generalizing st with
    | zero => simpa using h
    | succ n ih =>
      rw [Function.iterate_succ_apply]
      exact ih (handleTimeout st) (handleTimeout_preserves_opened st h)
  · intro st h hcnt
    have hgt : st.socketTimeouts + 1 > SOCKET_TIMEOUT_CLOSE_THRESHOLD :=
      Nat.lt_succ_of_le hcnt
    unfold handleTimeout
    rw [if_pos ⟨h, hgt⟩]
    unfold onConnectionClosed
    by_cases hcode : st.closingCode ≠ 200
    · rw [if_pos hcode]
      exact ⟨rfl, rfl⟩
    · rw [if_neg hcode]
      exact ⟨rfl, rfl⟩

/-- Witness for C3: a closing connection at the threshold (3 consecutive
timeouts already seen, none before that received a remote close frame) is
finalized as CLOSED by the next timeout, still without a remote frame. -/
theorem C3_closing_threshold_policy_witness :
    (handleTimeout
        ⟨ConnLife.closing, 3, 0, [], 0, 200, none, none, []⟩).connLife
      = ConnLife.closed ∧
    (handleTimeout
        ⟨ConnLife.closing, 3, 0, [], 0, 200, none, none, []⟩).remoteCloseFrame
      = (none : Option String) :=
  (C3_closing_threshold_policy.2.2
    ⟨ConnLife.closing, 3, 0, [], 0, 200, none, none, []⟩ rfl (by decide))

theorem handleTimeout_trace_eq (st : ConnState) :
    (handleTimeout st).trace = st.trace := by
  unfold handleTimeout onConnectionClosed
  by_cases h : st.connLife = ConnLife.closing ∧
      st.socketTimeouts + 1 > SOCKET_TIMEOUT_CLOSE_THRESHOLD
  · rw [if_pos h]
    by_cases hc : st.closingCode ≠ 200
    · rw [if_pos hc]
    · rw [if_neg hc]
  · rw [if_neg h]

theorem handleTimeout_frames_eq (st : ConnState) :
    (handleTimeout st).framesWrittenWithoutRead
      = st.framesWrittenWithoutRead := by
  unfold handleTimeout onConnectionClosed
  by_cases h : st.connLife = ConnLife.closing ∧
      st.socketTimeouts + 1 > SOCKET_TIMEOUT_CLOSE_THRESHOLD
  · rw [if_pos h]
    by_cases hc : st.closingCode ≠ 200
    · rw [if_pos hc]
    · rw [if_neg hc]
  · rw [if_neg h]

theorem flushOutbound_trace (wr : WriteOutcome) (st : ConnState) :
    ∃ t, (flushOutbound wr st).trace = st.trace ++ t := by
  unfold flushOutbound
  by_cases h : st.outboundSize > 0
  · rw [if_pos h]
    cases wr with
    | wrote moved newSize =>
      by_cases hm : moved <;> simp [hm]
    | timedOut =>
      refine ⟨[Ev.writeAttempt], ?_⟩
      rw [handleTimeout_trace_eq]
  · rw [if_neg h]
    exact ⟨[], by simp⟩

theorem flushOutbound_frames_eq (wr : WriteOutcome) (st : ConnState) :
    (flushOutbound wr st).framesWrittenWithoutRead
      = st.framesWrittenWithoutRead := by
  unfold flushOutbound
  by_cases h : st.outboundSize > 0
  · rw [if_pos h]
    cases wr with
    | wrote moved newSize =>
      by_cases hm : moved <;> simp [hm]
    | timedOut =>
      rw [handleTimeout_frames_eq]
  · rw [if_neg h]

theorem processTimeoutsConn_trace (now : Nat) (st : ConnState) :
    ∃ t, (processTimeoutsConn now st).trace = st.trace ++ t :=
  ⟨_, rfl⟩

theorem processDataEvents_trace (rd : ReadOutcome) (wr : WriteOutcome)
    (now : Nat) (st : ConnState) :
    ∃ t, (processDataEvents rd wr now st).trace
      = st.trace ++ Ev.readAttempt :: t := by
  unfold processDataEvents
  cases rd with
  | ok =>
    simp only [handleRead, pyTruthy, Bool.false_eq_true, if_false]
    by_cases h1 : (({ st with
        trace := st.trace ++ [Ev.readAttempt],
        framesWrittenWithoutRead := 0 } : ConnState)).raised.isSome
    · rw [if_pos h1]
      exact ⟨[], by simp⟩
    · rw [if_neg h1]
      rcases flushOutbound_trace wr { st with
          trace := st.trace ++ [Ev.readAttempt],
          framesWrittenWithoutRead := 0 } with ⟨t1, ht1⟩
      by_cases h2 : (flushOutbound wr { st with
          trace := st.trace ++ [Ev.readAttempt],
          framesWrittenWithoutRead := 0 }).raised.isSome
      · rw [if_pos h2]
        exact ⟨t1, by rw [ht1]; simp⟩
      · rw [if_neg h2]
        rcases processTimeoutsConn_trace now (flushOutbound wr { st with
            trace := st.trace ++ [Ev.readAttempt],
            framesWrittenWithoutRead := 0 }) with ⟨t2, ht2⟩
        exact ⟨t1 ++ t2, by rw [ht2, ht1]; simp⟩
  | timedOut =>
    have htr : (handleTimeout { st with
        trace := st.trace ++ [Ev.readAttempt] }).trace
        = st.trace ++ [Ev.readAttempt] :=
      handleTimeout_trace_eq _
    by_cases h1 : (handleTimeout { st with
        trace := st.trace ++ [Ev.readAttempt] }).raised.isSome
    · rw [if_pos h1]
      exact ⟨[], by rw [htr]⟩
    · rw [if_neg h1]
      rcases flushOutbound_trace wr (handleTimeout { st with
          trace := st.trace ++ [Ev.readAttempt] }) with ⟨t1, ht1⟩
      by_cases h2 : (flushOutbound wr (handleTimeout { st with
          trace := st.trace ++ [Ev.readAttempt] })).raised.isSome
      · rw [if_pos h2]
        exact ⟨t1, by rw [ht1, htr]; simp⟩
      · rw [if_neg h2]
        rcases processTimeoutsConn_trace now (flushOutbound wr
            (handleTimeout { st with
              trace := st.trace ++ [Ev.readAttempt] })) with ⟨t2, ht2⟩
        exact ⟨t1 ++ t2, by rw [ht2, ht1, htr]; simp⟩

theorem processDataEvents_frames_zero (rd : ReadOutcome) (wr : WriteOutcome)
    (now : Nat) (st : ConnState) (h : st.framesWrittenWithoutRead = 0) :
    (processDataEvents rd wr now st).framesWrittenWithoutRead = 0 := by
  unfold processDataEvents
  cases rd with
  | ok =>
    simp only [handleRead, pyTruthy, Bool.false_eq_true, if_false]
    by_cases h1 : (({ st with
        trace := st.trace ++ [Ev.readAttempt],
        framesWrittenWithoutRead := 0 } : ConnState)).raised.isSome
    · rw [if_pos h1]
    · rw [if_neg h1]
      by_cases h2 : (flushOutbound wr { st with
          trace := st.trace ++ [Ev.readAttempt],
          framesWrittenWithoutRead := 0 }).raised.isSome
      · rw [if_pos h2, flushOutbound_frames_eq]
      · rw [if_neg h2]
        show (processTimeoutsConn now _).framesWrittenWithoutRead = 0
        unfold processTimeoutsConn
        rw [flushOutbound_frames_eq]
  | timedOut =>
    have hfr : (handleTimeout { st with
        trace := st.trace ++ [Ev.readAttempt] }).framesWrittenWithoutRead
        = 0 := by
      rw [handleTimeout_frames_eq]
      exact h
    by_cases h1 : (handleTimeout { st with
        trace := st.trace ++ [Ev.readAttempt] }).raised.isSome
    · rw [if_pos h1]
      exact hfr
    · rw [if_neg h1]
      by_cases h2 : (flushOutbound wr (handleTimeout { st with
          trace := st.trace ++ [Ev.readAttempt] })).raised.isSome
      · rw [if_pos h2, flushOutbound_frames_eq]
        exact hfr
      · rw [if_neg h2]
        show (processTimeoutsConn now _).framesWrittenWithoutRead = 0
        unfold processTimeoutsConn
        rw [flushOutbound_frames_eq]
        exact hfr

/-- C8: `_send_frame` increments the frames-written-without-read counter;
below the ratio no event-loop pass happens (the trace is untouched), and
on reaching `WRITE_TO_READ_RATIO` the counter is zeroed and one full
`process_data_events` pass — beginning with a read attempt the caller
never asked for — is performed. -/
theorem C8_write_to_read_ratio (rd : ReadOutcome) (wr : WriteOutcome)
    (now : Nat) (st : ConnState) :
    (st.framesWrittenWithoutRead + 1 ≠ WRITE_TO_READ_RATIO →
      (sendFrame rd wr now st).framesWrittenWithoutRead
        = st.framesWrittenWithoutRead + 1 ∧
      (sendFrame rd wr now st).trace = st.trace) ∧
    (st.framesWrittenWithoutRead + 1 = WRITE_TO_READ_RATIO →
      (sendFrame rd wr now st).framesWrittenWithoutRead = 0 ∧
      ((sendFrame rd wr now st).trace.drop st.trace.length).head?
        = some Ev.readAttempt) := by
  constructor
  · intro hne
    unfold sendFrame
    rw [if_neg hne]
    exact ⟨rfl, rfl⟩
  · intro heq
    unfold sendFrame
    rw [if_pos heq]
    constructor
    · exact processDataEvents_frames_zero rd wr now _ rfl
    · rcases processDataEvents_trace rd wr now { st with
          outboundSize := st.outboundSize + 1,
          framesWrittenWithoutRead := 0 } with ⟨t, ht⟩
      rw [ht]
      show ((st.trace ++ Ev.readAttempt :: t).drop st.trace.length).head?
        = some Ev.readAttempt
      rw [List.drop_left]
      rfl

/-- Witness for C8 at a counter of 999 (one below the ratio of 1000):
the send zeroes the counter and the forced pass begins with a read
attempt. -/
theorem C8_write_to_read_ratio_witness :
    (sendFrame ReadOutcome.ok (WriteOutcome.wrote true 0) 0
        ⟨ConnLife.opened, 0, 999, [], 0, 200, none, none, []⟩).framesWrittenWithoutRead
      = 0 ∧
    ((sendFrame ReadOutcome.ok (WriteOutcome.wrote true 0) 0
        ⟨ConnLife.opened, 0, 999, [], 0, 200, none, none, []⟩).trace.drop
          ([] : List Ev).length).head?
      = some Ev.readAttempt :=
  (C8_write_to_read_ratio ReadOutcome.ok (WriteOutcome.wrote true 0) 0
    ⟨ConnLife.opened, 0, 999, [], 0, 200, none, none, []⟩).2 (by decide)

/-! ### Channel-level claims -/

/-- C2 counterexample: an RPC with the single acceptable reply type
`Basic.QosOk`, answered by exactly one `Basic.QosOk` frame, returns that
frame — but the correlation registry is not residual-free afterwards:
`_process_replies` deletes the stored frame yet leaves the recorded reply
key in `self._replies`. -/
theorem C2_residual_reply_key_counterexample :
    (rpc ⟨"Basic.Qos"⟩ PyCallback.none (PyReplies.oflist ["Basic.QosOk"])
        (some ⟨"Basic.QosOk"⟩)
        ⟨ChanLife.opened, false, [], [], [], [], [], [], false, true, true,
          []⟩).1
      = RpcOut.ret (some ⟨"Basic.QosOk"⟩) ∧
    (rpc ⟨"Basic.Qos"⟩ PyCallback.none (PyReplies.oflist ["Basic.QosOk"])
        (some ⟨"Basic.QosOk"⟩)
        ⟨ChanLife.opened, false, [], [], [], [], [], [], false, true, true,
          []⟩).2.replies
      = ["Basic.QosOk"] := by
  decide

/-- C2 (amended): for an RPC on a non-closed channel with a clean
correlation registry and a non-empty acceptable-reply list, answered by
exactly one frame of an acceptable type, the call returns that frame and
the stored frame is removed from the frames map — but the recorded reply
key remains in the replies list (cleanup is only partial). -/
theorem C2_rpc_partial_cleanup (st : ChanState) (keys : List String)
    (m : Frame) (cb : PyCallback) (f : Frame)
    (hopen : ¬ st.chanLife = ChanLife.closed)
    (hcb : callbackInvalid cb = false)
    (hr : st.replies = []) (hf : st.frames = [])
    (hk : keys.contains f.name = true) :
    (rpc m cb (PyReplies.oflist keys) (some f) st).1
      = RpcOut.ret (some f) ∧
    dictLookup f.name
        (rpc m cb (PyReplies.oflist keys) (some f) st).2.frames = none ∧
    f.name ∈ (rpc m cb (PyReplies.oflist keys) (some f) st).2.replies := by
  have hmem : f.name ∈ st.registered ++ keys :=
    List.mem_append_right _ (by simpa using hk)
  unfold rpc
  rw [if_neg hopen]
  simp only [acceptableRepliesInvalid, Bool.false_eq_true, if_false, hcb,
    repliesList]
  unfold chanSendMethod deliver
  simp only [hmem, if_pos, if_true]
  unfold onRpcComplete
  simp only [hr, hf, List.nil_append, Bool.not_true, Bool.and_false,
    Bool.false_eq_true, if_false]
  unfold processReplies
  simp only [List.find?, hk, dictInsert, dictContains, dictLookup,
    Option.isSome_none, Bool.false_eq_true, if_false, List.nil_append,
    if_pos rfl]
  refine ⟨rfl, ?_, ?_⟩
  · cases cb <;> simp [dictRemove, dictLookup]
  · cases cb <;> simp

/-- Witness for C2 (amended) at the concrete `Basic.Qos` call. -/
theorem C2_rpc_partial_cleanup_witness :
    (rpc ⟨"Basic.Qos"⟩ PyCallback.none (PyReplies.oflist ["Basic.QosOk"])
        (some ⟨"Basic.QosOk"⟩)
        ⟨ChanLife.opened, true, [], [], [], [], [], [], false, true, true,
          []⟩).1
      = RpcOut.ret (some ⟨"Basic.QosOk"⟩) ∧
    dictLookup "Basic.QosOk"
        (rpc ⟨"Basic.Qos"⟩ PyCallback.none (PyReplies.oflist ["Basic.QosOk"])
          (some ⟨"Basic.QosOk"⟩)
          ⟨ChanLife.opened, true, [], [], [], [], [], [], false, true, true,
            []⟩).2.frames = none ∧
    "Basic.QosOk" ∈ (rpc ⟨"Basic.Qos"⟩ PyCallback.none
        (PyReplies.oflist ["Basic.QosOk"]) (some ⟨"Basic.QosOk"⟩)
        ⟨ChanLife.opened, true, [], [], [], [], [], [], false, true, true,
          []⟩).2.replies :=
  C2_rpc_partial_cleanup
    ⟨ChanLife.opened, true, [], [], [], [], [], [], false, true, true, []⟩
    ["Basic.QosOk"] ⟨"Basic.Qos"⟩ PyCallback.none ⟨"Basic.QosOk"⟩
    (by decide) rfl rfl rfl (by decide)

theorem rpc_closed (m : Frame) (cb : PyCallback) (acceptable : PyReplies)
    (arrival : Option Frame) (st : ChanState)
    (h : st.chanLife = ChanLife.closed) :
    rpc m cb acceptable arrival st = (RpcOut.exn PyErr.channelClosed, st) := by
  unfold rpc
  rw [if_pos h]

/-- The cases in which a public channel operation invoked on a CLOSED
channel returns `None` silently instead of raising: `basic_cancel` (and
`stop_consuming` with a tag) when the named consumer tag has no
registered consumer, and `stop_consuming` without a tag or
`start_consuming` when no consumer is registered at all — in each case an
early-return guard or an empty loop precedes the closed-channel check. -/
def silentOnClosed : ChanOp → ChanState → Bool
  | ChanOp.opBasicCancel tag _, st => !(st.consumers.contains tag)
  | ChanOp.opStopConsuming (some tag), st => !(st.consumers.contains tag)
  | ChanOp.opStopConsuming none, st => st.consumers.isEmpty
  | ChanOp.opStartConsuming, st => st.consumers.isEmpty
  | _, _ => false

/-- Recognizer for the `confirm_delivery` operation. -/
def isConfirmDeliveryOp : ChanOp → Bool
  | ChanOp.opConfirmDelivery _ => true
  | _ => false

/-- C4 counterexample: on a CLOSED channel, `basic_cancel` with an
unregistered consumer tag returns `None` silently — it does not fail with
a channel-closed fault (though it also sends nothing). -/
theorem C4_silent_cancel_counterexample :
    (runOp (ChanOp.opBasicCancel "consumer0" false) none
        ⟨ChanLife.closed, false, [], [], [], [], [], [], false, true, true,
          []⟩).1
      = OpOut.retNone ∧
    OpOut.retNone ≠ OpOut.exn PyErr.channelClosed ∧
    (runOp (ChanOp.opBasicCancel "consumer0" false) none
        ⟨ChanLife.closed, false, [], [], [], [], [], [], false, true, true,
          []⟩).2.sent
      = [] := by
  decide

/-- C4 (amended): every public channel operation invoked while the
channel is CLOSED hands zero frames to the send path, and it fails
immediately with the channel-closed fault except that (i) `basic_cancel`
and `stop_consuming` with an unregistered consumer tag, and
`stop_consuming`/`start_consuming` with no registered consumers, return
`None` silently; (ii) `start_consuming` with consumers still registered
polls the event loop indefinitely instead of failing; and (iii)
`confirm_delivery` on a broker without publisher-confirm support raises
`MethodNotImplemented` before reaching the closed-channel check. -/
theorem C4_closed_channel_rejects (op : ChanOp) (arrival : Option Frame)
    (st : ChanState) (hclosed : st.chanLife = ChanLife.closed) :
    (runOp op arrival st).2.sent = st.sent ∧
    ((runOp op arrival st).1 = OpOut.exn PyErr.channelClosed ∨
      ((runOp op arrival st).1 = OpOut.retNone ∧
        silentOnClosed op st = true) ∨
      ((runOp op arrival st).1 = OpOut.blocked ∧
        op = ChanOp.opStartConsuming ∧ st.consumers.isEmpty = false) ∨
      ((runOp op arrival st).1 = OpOut.exn PyErr.methodNotImplemented ∧
        isConfirmDeliveryOp op = true ∧
        (st.publisherConfirms = false ∨ st.basicNack = false))) := by
  cases op with
  | opBasicCancel tag nowait =>
    by_cases hm : tag ∈ st.consumers
    · have hnm : ¬ tag ∉ st.consumers := by simpa using hm
      simp only [runOp, basicCancel, hnm, if_false]
      rw [rpc_closed _ _ _ _ _ (by simpa using hclosed)]
      simp
    · have hcf : st.consumers.contains tag = false := by simpa using hm
      simp [runOp, basicCancel, hm, silentOnClosed, hcf]
  | opBasicPublish =>
    have hne : st.chanLife ≠ ChanLife.opened := by
      rw [hclosed]
      decide
    simp [runOp, basicPublish, hne]
  | opBasicQos =>
    simp only [runOp, basicQos]
    rw [rpc_closed _ _ _ _ _ hclosed]
    simp [liftRpc]
  | opBasicRecover =>
    simp only [runOp, basicRecover]
    rw [rpc_closed _ _ _ _ _ hclosed]
    simp [liftRpc]
  | opConfirmDelivery nowait =>
    by_cases hpc : st.publisherConfirms = true
    · by_cases hbn : st.basicNack = true
      · simp only [runOp, confirmDelivery, hpc, hbn, Bool.not_true,
          Bool.or_self, Bool.false_eq_true, if_false]
        rw [rpc_closed _ _ _ _ _ (by simpa using hclosed)]
        simp
      · have hbn' : st.basicNack = false := by simpa using hbn
        simp [runOp, confirmDelivery, hpc, hbn', isConfirmDeliveryOp]
    · have hpc' : st.publisherConfirms = false := by simpa using hpc
      simp [runOp, confirmDelivery, hpc', isConfirmDeliveryOp]
  | opExchangeBind nowait =>
    simp only [runOp, exchangeBind]
    rw [rpc_closed _ _ _ _ _ hclosed]
    simp [liftRpc]
  | opExchangeDeclare nowait =>
    simp only [runOp, exchangeDeclare]
    rw [rpc_closed _ _ _ _ _ hclosed]
    simp [liftRpc]
  | opExchangeDelete nowait =>
    simp only [runOp, exchangeDelete]
    rw [rpc_closed _ _ _ _ _ hclosed]
    simp [liftRpc]
  | opExchangeUnbind nowait =>
    simp only [runOp, exchangeUnbind]
    rw [rpc_closed _ _ _ _ _ hclosed]
    simp [liftRpc]
  | opQueueBind nowait =>
    simp only [runOp, queueBind]
    rw [rpc_closed _ _ _ _ _ hclosed]
    simp [liftRpc]
  | opQueueDeclare nowait =>
    simp only [runOp, queueDeclare]
    rw [rpc_closed _ _ _ _ _ hclosed]
    simp [liftRpc]
  | opQueueDelete nowait =>
    simp only [runOp, queueDelete]
    rw [rpc_closed _ _ _ _ _ hclosed]
    simp [liftRpc]
  | opQueuePurge nowait =>
    simp only [runOp, queuePurge]
    rw [rpc_closed _ _ _ _ _ hclosed]
    simp [liftRpc]
  | opQueueUnbind =>
    simp only [runOp, queueUnbind]
    rw [rpc_closed _ _ _ _ _ hclosed]
    simp [liftRpc]
  | opTxSelect =>
    simp only [runOp, txSelect]
    rw [rpc_closed _ _ _ _ _ hclosed]
    simp [liftRpc]
  | opTxCommit =>
    simp [runOp, txCommit, validateChannelClosed, hclosed]
  | opTxRollback =>
    simp [runOp, txRollback, validateChannelClosed, hclosed]
  | opBasicGet =>
    simp [runOp, basicGet, baseBasicGet, hclosed]
  | opStartConsuming =>
    cases hcs : st.consumers with
    | nil => simp [runOp, startConsuming, silentOnClosed, hcs]
    | cons t rest => simp [runOp, startConsuming, silentOnClosed, hcs]
  | opStopConsuming tag? =>
    cases tag? with
    | some tag =>
      by_cases hm : tag ∈ st.consumers
      · have hnm : ¬ tag ∉ st.consumers := by simpa using hm
        simp only [runOp, stopConsuming, basicCancel, hnm, if_false]
        rw [rpc_closed _ _ _ _ _ (by simpa using hclosed)]
        simp
      · have hcf : st.consumers.contains tag = false := by simpa using hm
        simp [runOp, stopConsuming, basicCancel, hm, silentOnClosed, hcf]
    | none =>
      cases hcs : st.consumers with
      | nil => simp [runOp, stopConsuming, stopConsumingAll, hcs,
          silentOnClosed]
      | cons t rest =>
        have hnm : ¬ t ∉ st.consumers := by
          rw [hcs]
          simp
        simp only [runOp, stopConsuming, hcs, stopConsumingAll]
        simp only [basicCancel, hnm, if_false]
        rw [rpc_closed _ _ _ _ _ (by simpa using hclosed)]
        simp

/-- Witness for C4 (amended) at `basic_qos` on a concrete closed
channel. -/
theorem C4_closed_channel_rejects_witness :
    (runOp ChanOp.opBasicQos none
        ⟨ChanLife.closed, false, [], [], [], [], [], [], false, true, true,
          []⟩).2.sent
      = [] ∧
    ((runOp ChanOp.opBasicQos none
        ⟨ChanLife.closed, false, [], [], [], [], [], [], false, true, true,
          []⟩).1
        = OpOut.exn PyErr.channelClosed ∨
      ((runOp ChanOp.opBasicQos none
          ⟨ChanLife.closed, false, [], [], [], [], [], [], false, true, true,
            []⟩).1
          = OpOut.retNone ∧
        silentOnClosed ChanOp.opBasicQos
          ⟨ChanLife.closed, false, [], [], [], [], [], [], false, true, true,
            []⟩ = true) ∨
      ((runOp ChanOp.opBasicQos none
          ⟨ChanLife.closed, false, [], [], [], [], [], [], false, true, true,
            []⟩).1
          = OpOut.blocked ∧
        ChanOp.opBasicQos = ChanOp.opStartConsuming ∧
        (⟨ChanLife.closed, false, [], [], [], [], [], [], false, true, true,
            []⟩ : ChanState).consumers.isEmpty = false) ∨
      ((runOp ChanOp.opBasicQos none
          ⟨ChanLife.closed, false, [], [], [], [], [], [], false, true, true,
            []⟩).1
          = OpOut.exn PyErr.methodNotImplemented ∧
        isConfirmDeliveryOp ChanOp.opBasicQos = true ∧
        ((⟨ChanLife.closed, false, [], [], [], [], [], [], false, true, true,
            []⟩ : ChanState).publisherConfirms = false ∨
          (⟨ChanLife.closed, false, [], [], [], [], [], [], false, true,
            true, []⟩ : ChanState).basicNack = false))) :=
  C4_closed_channel_rejects ChanOp.opBasicQos none
    ⟨ChanLife.closed, false, [], [], [], [], [], [], false, true, true, []⟩
    rfl

/-- C5: under confirmation mode, `basic_publish` maps the reply frame the
correlation engine returns for the publish to a definite outcome: `True`
for `Basic.Ack`, `False` for `Basic.Nack` or `Basic.Reject`, and a
`ValueError` for any other frame type — never an indeterminate result. -/
theorem C5_confirm_publish_trichotomy (st : ChanState)
    (arrival : Option Frame) (f : Frame)
    (hopen : st.chanLife = ChanLife.opened)
    (hconf : st.confirmation = true)
    (hresp : (rpc ⟨"Basic.Publish"⟩ PyCallback.none
        (PyReplies.oflist ["Basic.Ack", "Basic.Nack", "Basic.Reject"])
        arrival st).1 = RpcOut.ret (some f)) :
    (f.name = "Basic.Ack" →
      (basicPublish arrival st).1 = OpOut.retBool true) ∧
    ((f.name = "Basic.Nack" ∨ f.name = "Basic.Reject") →
      (basicPublish arrival st).1 = OpOut.retBool false) ∧
    (f.name ≠ "Basic.Ack" → f.name ≠ "Basic.Nack" →
      f.name ≠ "Basic.Reject" →
      (basicPublish arrival st).1 = OpOut.exn PyErr.valueError) := by
  have hne : ¬ st.chanLife ≠ ChanLife.opened := by
    rw [hopen]
    simp
  rcases hp : rpc ⟨"Basic.Publish"⟩ PyCallback.none
      (PyReplies.oflist ["Basic.Ack", "Basic.Nack", "Basic.Reject"])
      arrival st with ⟨out, st1⟩
  rw [hp] at hresp
  simp only at hresp
  subst hresp
  unfold basicPublish
  rw [if_neg hne]
  simp only [hconf, if_true]
  rw [hp]
  refine ⟨?_, ?_, ?_⟩
  · intro h
    simp [h]
  · intro h
    rcases h with h | h <;> simp [h]
  · intro h1 h2 h3
    simp [h1, h2, h3]

/-- Witness for C5 at a clean confirm-mode channel answered by
`Basic.Ack`: the publish returns `True`. -/
theorem C5_confirm_publish_trichotomy_witness :
    ((⟨"Basic.Ack"⟩ : Frame).name = "Basic.Ack" →
      (basicPublish (some ⟨"Basic.Ack"⟩)
          ⟨ChanLife.opened, true, [], [], [], [], [], [], false, true, true,
            []⟩).1
        = OpOut.retBool true) ∧
    (((⟨"Basic.Ack"⟩ : Frame).name = "Basic.Nack" ∨
        (⟨"Basic.Ack"⟩ : Frame).name = "Basic.Reject") →
      (basicPublish (some ⟨"Basic.Ack"⟩)
          ⟨ChanLife.opened, true, [], [], [], [], [], [], false, true, true,
            []⟩).1
        = OpOut.retBool false) ∧
    ((⟨"Basic.Ack"⟩ : Frame).name ≠ "Basic.Ack" →
      (⟨"Basic.Ack"⟩ : Frame).name ≠ "Basic.Nack" →
      (⟨"Basic.Ack"⟩ : Frame).name ≠ "Basic.Reject" →
      (basicPublish (some ⟨"Basic.Ack"⟩)
          ⟨ChanLife.opened, true, [], [], [], [], [], [], false, true, true,
            []⟩).1
        = OpOut.exn PyErr.valueError) :=
  C5_confirm_publish_trichotomy
    ⟨ChanLife.opened, true, [], [], [], [], [], [], false, true, true, []⟩
    (some ⟨"Basic.Ack"⟩) ⟨"Basic.Ack"⟩ rfl rfl (by decide)

/-- C9: on an open channel, `_rpc` with a truthy non-list
`acceptable_replies` raises `TypeError` before any side effect, and so
does a non-invocable `callback` once the reply-list argument is valid;
the channel state (in particular its dispatcher registrations and the
send-path log) is untouched. -/
theorem C9_rpc_validates_arguments (st : ChanState) (m : Frame)
    (arrival : Option Frame) (hopen : st.chanLife = ChanLife.opened) :
    (∀ cb, (rpc m cb PyReplies.truthyNonList arrival st).1
        = RpcOut.exn PyErr.typeError ∧
      (rpc m cb PyReplies.truthyNonList arrival st).2 = st) ∧
    (∀ acc, acceptableRepliesInvalid acc = false →
      (rpc m PyCallback.nonCallable acc arrival st).1
          = RpcOut.exn PyErr.typeError ∧
      (rpc m PyCallback.nonCallable acc arrival st).2 = st) := by
  have hnc : ¬ st.chanLife = ChanLife.closed := by
    rw [hopen]
    decide
  constructor
  · intro cb
    unfold rpc
    rw [if_neg hnc]
    simp [acceptableRepliesInvalid]
  · intro acc hacc
    unfold rpc
    rw [if_neg hnc]
    simp [hacc, callbackInvalid]

/-- Witness for C9 on a concrete open channel. -/
theorem C9_rpc_validates_arguments_witness :
    ((rpc ⟨"Basic.Qos"⟩ PyCallback.none PyReplies.truthyNonList none
        ⟨ChanLife.opened, false, [], [], [], [], [], [], false, true, true,
          []⟩).1
      = RpcOut.exn PyErr.typeError ∧
    (rpc ⟨"Basic.Qos"⟩ PyCallback.none PyReplies.truthyNonList none
        ⟨ChanLife.opened, false, [], [], [], [], [], [], false, true, true,
          []⟩).2
      = ⟨ChanLife.opened, false, [], [], [], [], [], [], false, true, true,
          []⟩) ∧
    ((rpc ⟨"Basic.Qos"⟩ PyCallback.nonCallable
        (PyReplies.oflist ["Basic.QosOk"]) none
        ⟨ChanLife.opened, false, [], [], [], [], [], [], false, true, true,
          []⟩).1
      = RpcOut.exn PyErr.typeError ∧
    (rpc ⟨"Basic.Qos"⟩ PyCallback.nonCallable
        (PyReplies.oflist ["Basic.QosOk"]) none
        ⟨ChanLife.opened, false, [], [], [], [], [], [], false, true, true,
          []⟩).2
      = ⟨ChanLife.opened, false, [], [], [], [], [], [], false, true, true,
          []⟩) :=
  ⟨(C9_rpc_validates_arguments
      ⟨ChanLife.opened, false, [], [], [], [], [], [], false, true, true, []⟩
      ⟨"Basic.Qos"⟩ none rfl).1 PyCallback.none,
   (C9_rpc_validates_arguments
      ⟨ChanLife.opened, false, [], [], [], [], [], [], false, true, true, []⟩
      ⟨"Basic.Qos"⟩ none rfl).2 (PyReplies.oflist ["Basic.QosOk"]) rfl⟩
